import Mathlib

/-!
Verification of the stock-market core of the ai-economist fork.

Shallow embedding conventions: Python floats are modelled as exact
rationals; Python int and float floor division and math.floor both become
the Mathlib floor on rationals; operations that raise a Python exception
(ValueError on an out-of-range action, ZeroDivisionError on a zero
denominator) return none.  Randomized quantities (the normal log-return,
the uniform crash draws, the per-step agent order) are explicit inputs.
-/

/-! ## PriceProcess: base/stock_market.py -/

/-- StockMarket.transaction_cost, also BuyOrSellStocks.transaction_cost. -/
def transactionCost : ℚ := 0.0075

/-- The value that the body of StockMarket.nextstep assigns to p, given the
aggregated supply and demand.  The source line reads
p = (demand - supply) / demand+supply, which by operator precedence is
((demand - supply) / demand) + supply, and raises ZeroDivisionError
(modelled as none) when demand = 0 while demand + supply > 0. -/
def nextstepP (supply demand : ℚ) : Option ℚ :=
  if 0 < demand + supply then
    if demand = 0 then none
    else some ((demand - supply) / demand + supply)
  else some 0

/-- StockMarket.nextstep: price = price * (1 + (0.5*random_return + 0.5*p)),
with the random normal return passed in explicitly. -/
def nextstepPrice (price r supply demand : ℚ) : Option ℚ :=
  (nextstepP supply demand).map fun p => price * (1 + (0.5 * r + 0.5 * p))

/-- Modelled from the spec: the order-flow imbalance the specification
describes, p = (demand - supply) / (demand + supply) when demand + supply
is positive, else 0.  Used only to compare with nextstepP. -/
def specOrderFlowImbalance (demand supply : ℚ) : ℚ :=
  if 0 < demand + supply then (demand - supply) / (demand + supply) else 0

/-! ## OrderExecutor: components/buysell_stocks.py -/

/-- BuyOrSellStocks.no_actions. -/
def noActions : ℕ := 20

/-- The endogenous fields of one trading agent that component_step of
BuyOrSellStocks reads or writes.  StocksLeft is the per-agent copy of the
shared pool counter. -/
structure AgentState where
  availableFunds : ℚ
  numberOfStocks : ℚ
  totalBalance : ℚ
  stockPrice : ℚ
  demand : ℚ
  supply : ℚ
  ableToBuy : ℚ
  ableToSell : ℚ
  stocksLeft : ℚ
  deriving DecidableEq, Repr

/-- The buy branch of component_step (actions 1..10 with AbleToBuy = 0).
Returns the updated own fields of the acting agent together with the
amount added to the StocksLeft copy of every agent (negative for a buy). -/
def buyStep (ag : AgentState) (action : ℕ) : AgentState × ℚ :=
  let maxStocksBuy : ℚ :=
    (⌊(ag.availableFunds - ag.availableFunds * transactionCost) / ag.stockPrice⌋ : ℚ)
  let buyPercentage : ℚ := (action : ℚ) * 0.10
  let requested : ℚ := (⌊maxStocksBuy * buyPercentage⌋ : ℚ)
  let stocksToBuy : ℚ := if ag.stocksLeft < requested then ag.stocksLeft else requested
  let costToBuy : ℚ := stocksToBuy * ag.stockPrice + stocksToBuy * ag.stockPrice * transactionCost
  let funds : ℚ := ag.availableFunds - costToBuy
  let stocks : ℚ := ag.numberOfStocks + stocksToBuy
  ({ ag with
      availableFunds := funds
      numberOfStocks := stocks
      totalBalance := funds + (stocks * ag.stockPrice - stocks * ag.stockPrice * transactionCost)
      demand := stocksToBuy
      supply := 0 }, -stocksToBuy)

/-- The sell branch of component_step (actions 11..20 with AbleToSell = 0). -/
def sellStep (ag : AgentState) (action : ℕ) : AgentState × ℚ :=
  let sellPercentage : ℚ := ((action : ℚ) - 10) * 0.10
  let stocksToSell : ℚ := (⌊ag.numberOfStocks * sellPercentage⌋ : ℚ)
  let proceeds : ℚ := stocksToSell * ag.stockPrice
  let fee : ℚ := proceeds * transactionCost
  let funds : ℚ := ag.availableFunds + (proceeds - fee)
  let stocks : ℚ := ag.numberOfStocks - stocksToSell
  ({ ag with
      availableFunds := funds
      numberOfStocks := stocks
      totalBalance := funds + (stocks * ag.stockPrice - stocks * ag.stockPrice * transactionCost)
      demand := 0
      supply := stocksToSell }, stocksToSell)

/-- One iteration of the loop body of BuyOrSellStocks.component_step for one
acting agent: the elif chain on the action and the eligibility flags.
Returns none for an action above no_actions (ValueError) and for a buy at
stock price 0 (ZeroDivisionError in the floor division); otherwise returns
the updated own fields of the acting agent and the delta applied to the
StocksLeft copy of every agent. -/
def actAgent (ag : AgentState) (action : ℕ) : Option (AgentState × ℚ) :=
  if action ≤ noActions then
    if action = 0 then
      some ({ ag with demand := 0, supply := 0 }, 0)
    else if action ≤ 10 ∧ ag.ableToBuy = 0 then
      if ag.stockPrice = 0 then none else some (buyStep ag action)
    else if 10 < action ∧ action ≤ 20 ∧ ag.ableToSell = 0 then
      some (sellStep ag action)
    else if ag.ableToBuy = 1 ∧ ag.ableToSell = 1 then
      some ({ ag with totalBalance := ag.totalBalance - 5000, demand := 0, supply := 0 }, 0)
    else
      some (ag, 0)
  else none

/-- component_step processing of the agent at position i of the world with
its chosen action: the acting agent is replaced by its updated own fields
and then the inner for-loop adds the delta to the StocksLeft copy of every
agent, the acting agent included. -/
def worldAct (ags : List AgentState) (i : ℕ) (action : ℕ) : Option (List AgentState) :=
  match ags[i]? with
  | none => none
  | some ag =>
    match actAgent ag action with
    | none => none
    | some (ag2, d) =>
      some (((ags.set i ag2).map fun a => { a with stocksLeft := a.stocksLeft + d }))

/-- BuyOrSellStocks.component_step: the agents are processed one after the
other in the randomized order supplied from outside, given here as the
list of (agent position, action) pairs. -/
def componentStep (ags : List AgentState) : List (ℕ × ℕ) → Option (List AgentState)
  | [] => some ags
  | (i, a) :: rest =>
    match worldAct ags i a with
    | none => none
    | some ags2 => componentStep ags2 rest

/-- A sequence of order-execution steps, one order list per simulation step. -/
def runSteps (ags : List AgentState) : List (List (ℕ × ℕ)) → Option (List AgentState)
  | [] => some ags
  | o :: rest =>
    match componentStep ags o with
    | none => none
    | some ags2 => runSteps ags2 rest

/-- All agents hold the same StocksLeft value. -/
def StocksLeftEq (ags : List AgentState) : Prop :=
  ∀ a ∈ ags, ∀ b ∈ ags, a.stocksLeft = b.stocksLeft

instance : DecidablePred StocksLeftEq := fun ags =>
  inferInstanceAs (Decidable (∀ a ∈ ags, ∀ b ∈ ags, a.stocksLeft = b.stocksLeft))

/-! ## CircuitBreaker: components/circuit_breaker.py -/

/-- ExecCircuitBreaker.no_actions. -/
def cbNoActions : ℕ := 1

/-- ExecCircuitBreaker.generate_masks: the planner mask is the all-ones
default mask exactly on timesteps divisible by policy_interval, otherwise
the all-zero no-op mask.  The world timestep is an integer and the Python
% on a positive modulus is Int.emod. -/
def cbGenerateMasks (policyInterval : ℕ) (timestep : ℤ) : List ℕ :=
  if timestep % policyInterval = 0 then List.replicate cbNoActions 1
  else List.replicate cbNoActions 0

/-- ExecCircuitBreaker.component_step acting on the list of per-agent
(AbleToBuy, AbleToSell) pairs: a legal planner action 0 sets every pair to
(0, 0) and action 1 sets every pair to (1, 1), in both cases only when
(timestep - 1) % policy_interval = 0; otherwise the flags are left as they
are.  An action above no_actions raises ValueError (none). -/
def cbComponentStep (policyInterval : ℕ) (timestep : ℤ) (plannerAction : ℕ)
    (flags : List (ℚ × ℚ)) : Option (List (ℚ × ℚ)) :=
  if plannerAction ≤ cbNoActions then
    if plannerAction = 0 ∧ (timestep - 1) % policyInterval = 0 then
      some (flags.map fun _ => (0, 0))
    else if plannerAction = 1 ∧ (timestep - 1) % policyInterval = 0 then
      some (flags.map fun _ => (1, 1))
    else some flags
  else none

/-! ## Scenario price and crash dynamics: scenario_step of
stock_market_simulation.py -/

/-- The market-level state that scenario_step mutates. -/
structure MarketState where
  price : ℚ
  crash : Bool
  crashStart : ℕ
  intensity : ℚ
  duration : ℤ
  stepIndicator : ℕ
  deriving DecidableEq, Repr

/-- The random draws and demand aggregates consumed by one scenario step:
u is the uniform crash-decay factor, r the normal log-return, and
totalSupply and totalDemand the sums of the per-agent Supply and Demand. -/
structure StepDraw where
  u : ℚ
  r : ℚ
  totalSupply : ℚ
  totalDemand : ℚ
  deriving DecidableEq, Repr

/-- The crash-start block of scenario_step: after incrementing
step_indicator, if it equals the drawn crash start the price is multiplied
by the crash intensity, the duration counter is decremented, and the crash
flag is set (and cleared again if the counter reached zero). -/
def crashStartPhase (ms : MarketState) : MarketState :=
  let si := ms.stepIndicator + 1
  if si = ms.crashStart then
    let dur1 := ms.duration - 1
    { ms with stepIndicator := si, price := ms.price * ms.intensity,
              crash := decide (dur1 ≠ 0), duration := dur1 }
  else { ms with stepIndicator := si }

/-- The crash-continuation block of scenario_step: while the crash flag is
set, the intensity decays by the fresh uniform factor u, the price is
multiplied by the decayed intensity, and the duration counter is
decremented, clearing the flag at zero. -/
def crashContPhase (ms : MarketState) (u : ℚ) : MarketState :=
  if ms.crash then
    let int2 := ms.intensity * u
    let dur2 := ms.duration - 1
    { ms with intensity := int2, price := ms.price * int2,
              crash := decide (dur2 ≠ 0), duration := dur2 }
  else ms

/-- The price-relevant part of scenario_step: increment step_indicator,
run the crash-start block, run the crash-continuation block, then update
the price through StockMarket.nextstep on the aggregated demand and
supply. -/
def scenarioStepPrice (ms : MarketState) (d : StepDraw) : Option MarketState :=
  let ms2 := crashContPhase (crashStartPhase ms) d.u
  (nextstepPrice ms2.price d.r d.totalSupply d.totalDemand).map
    fun pr => { ms2 with price := pr }

/-- A run of consecutive scenario steps over the listed draws. -/
def runScenario (ms : MarketState) : List StepDraw → Option MarketState
  | [] => some ms
  | d :: rest =>
    match scenarioStepPrice ms d with
    | none => none
    | some ms2 => runScenario ms2 rest

/-! ## RewardEngine: rewards.py and get_current_optimization_metrics of
stock_market_simulation.py -/

/-- The two per-agent fields that get_current_optimization_metrics reads. -/
structure RewardAgent where
  totalBalance : ℚ
  startingFunds : ℚ
  deriving DecidableEq, Repr

/-- The per-agent part of get_current_optimization_metrics:
reward = TotalBalance / StartingFunds, then divided by n_agents. -/
def getCurrentOptimizationMetrics (agents : List RewardAgent) (nAgents : ℕ) : List ℚ :=
  agents.map fun a => a.totalBalance / a.startingFunds / (nAgents : ℚ)

/-- rewards.agent_reward_total: 2 * (balance / max_balance) - 1.  Defined
in rewards.py but not called by the stock-market scenario. -/
def agentRewardTotal (balance maxBalance : ℚ) : ℚ :=
  2 * (balance / maxBalance) - 1

/-- Modelled from the spec: the maximum balance across all agents this
step, the quantity the specification says the per-agent reward is
normalized by. -/
def specMaxBalance (balances : List ℚ) : ℚ := balances.foldr max 0

/-- Modelled from the spec: reward = balance / max_balance, and 0 when the
maximum balance is 0.  Used only to compare with the code metric. -/
def specAgentRewardBase (balances : List ℚ) (i : ℕ) : ℚ :=
  if specMaxBalance balances = 0 then 0
  else balances.getD i 0 / specMaxBalance balances

/-- np.average of a list of rationals. -/
def avgList (l : List ℚ) : ℚ := l.sum / (l.length : ℚ)

/-- rewards.volume_comparer. -/
def volumeComparer (volumeAverage volumeToday : ℚ) : ℚ :=
  if volumeAverage ≤ volumeToday then 1
  else if 0 < volumeAverage then volumeToday / volumeAverage
  else 1

/-- rewards.planner_metric_liquidity (the CSV logging side effect of the
source is omitted; it does not influence the returned value).  The branch
on index ≥ 10 is unreachable because the first branch already covers every
positive index; it is kept as in the source. -/
def plannerMetricLiquidity (volumeToday : ℚ) (volumes : List ℚ) (index : ℕ) : ℚ :=
  if 0 < index then volumeComparer (avgList (volumes.take index)) volumeToday
  else if 10 ≤ index then
    volumeComparer (avgList ((volumes.drop (index - 10)).take 10)) volumeToday
  else 0

/-! ## Branch equations for actAgent -/

lemma actAgent_hold_eq (ag : AgentState) :
    actAgent ag 0 = some ({ ag with demand := 0, supply := 0 }, 0) := rfl

lemma actAgent_buy_eq (ag : AgentState) (action : ℕ) (h1 : 1 ≤ action) (h2 : action ≤ 10)
    (hb : ag.ableToBuy = 0) (hp : ag.stockPrice ≠ 0) :
    actAgent ag action = some (buyStep ag action) := by
  unfold actAgent
  rw [if_pos (show action ≤ noActions by unfold noActions; omega),
      if_neg (show ¬ action = 0 by omega), if_pos ⟨h2, hb⟩, if_neg hp]

lemma actAgent_sell_eq (ag : AgentState) (action : ℕ) (h1 : 10 < action) (h2 : action ≤ 20)
    (hsl : ag.ableToSell = 0) :
    actAgent ag action = some (sellStep ag action) := by
  unfold actAgent
  rw [if_pos (show action ≤ noActions by unfold noActions; omega),
      if_neg (show ¬ action = 0 by omega),
      if_neg (show ¬ (action ≤ 10 ∧ ag.ableToBuy = 0) from fun hc => by omega),
      if_pos ⟨h1, h2, hsl⟩]

lemma actAgent_penalty_eq (ag : AgentState) (action : ℕ) (h0 : 1 ≤ action) (h2 : action ≤ 20)
    (hb : action ≤ 10 → ag.ableToBuy ≠ 0) (hsl : 10 < action → ag.ableToSell ≠ 0)
    (hflags : ag.ableToBuy = 1 ∧ ag.ableToSell = 1) :
    actAgent ag action =
      some ({ ag with totalBalance := ag.totalBalance - 5000, demand := 0, supply := 0 }, 0) := by
  unfold actAgent
  rw [if_pos (show action ≤ noActions by unfold noActions; omega),
      if_neg (show ¬ action = 0 by omega),
      if_neg (show ¬ (action ≤ 10 ∧ ag.ableToBuy = 0) from fun hc => hb hc.1 hc.2),
      if_neg (show ¬ (10 < action ∧ action ≤ 20 ∧ ag.ableToSell = 0) from
        fun hc => hsl hc.1 hc.2.2),
      if_pos hflags]

lemma actAgent_noop_eq (ag : AgentState) (action : ℕ) (h0 : 1 ≤ action) (h2 : action ≤ 20)
    (hb : action ≤ 10 → ag.ableToBuy ≠ 0) (hsl : 10 < action → ag.ableToSell ≠ 0)
    (hflags : ¬ (ag.ableToBuy = 1 ∧ ag.ableToSell = 1)) :
    actAgent ag action = some (ag, 0) := by
  unfold actAgent
  rw [if_pos (show action ≤ noActions by unfold noActions; omega),
      if_neg (show ¬ action = 0 by omega),
      if_neg (show ¬ (action ≤ 10 ∧ ag.ableToBuy = 0) from fun hc => hb hc.1 hc.2),
      if_neg (show ¬ (10 < action ∧ action ≤ 20 ∧ ag.ableToSell = 0) from
        fun hc => hsl hc.1 hc.2.2),
      if_neg hflags]

/-! ## Claim C1 -/

/-- C1: the claim states that the order-flow imbalance used by a price
step is p = (demand - supply) / (demand + supply) when demand + supply is
positive.  The source line p = (demand - supply) / demand+supply instead
evaluates to ((demand - supply) / demand) + supply by operator precedence:
at demand = 4, supply = 2 the code uses p = 5/2 while the stated imbalance
is 1/3, and at demand = 0, supply = 1 the code raises ZeroDivisionError
even though demand + supply > 0.  The guard on demand + supply > 0 and the
glossary definition show the stated formula is the intent, so this is a
slip in the code. -/
theorem C1_nextstep_imbalance_bug :
    nextstepP 2 4 = some (5/2) ∧
    specOrderFlowImbalance 4 2 = 1/3 ∧
    ((5/2 : ℚ) ≠ 1/3) ∧
    nextstepP 1 0 = none ∧
    nextstepPrice 100 0 2 4 = some 225 := by
  refine ⟨?_, ?_, by norm_num, ?_, ?_⟩ <;>
    norm_num [nextstepP, specOrderFlowImbalance, nextstepPrice]

/-! ## Claim C3 -/

/-- The scenario state of the claim C3: a single buy-eligible agent
(AbleToBuy = 0 enables buying in this code base) with available funds
10000, stock price 100 and 200 stocks left in the pool. -/
def c3Agent : AgentState :=
  { availableFunds := 10000, numberOfStocks := 0, totalBalance := 10000,
    stockPrice := 100, demand := 0, supply := 0, ableToBuy := 0, ableToSell := 0,
    stocksLeft := 200 }

/-- C3 counterexample: on the stated scenario the code leaves
available_funds = 25.75, not 24.25 as claimed; the cost of the 99 granted
stocks is 99 * 100 * 1.0075 = 9974.25, not 9975.75. -/
theorem C3_counterexample :
    ((actAgent c3Agent 10).map fun r => r.1.availableFunds) = some (25.75 : ℚ) ∧
    ((25.75 : ℚ) ≠ 24.25) ∧
    ((99 : ℚ) * 100 + 99 * 100 * transactionCost) = 9974.25 ∧
    ((9974.25 : ℚ) ≠ 9975.75) := by
  refine ⟨?_, by norm_num, ?_, by norm_num⟩ <;>
    norm_num [actAgent, buyStep, c3Agent, transactionCost, noActions]

/-- C3 (amended): on the stated scenario max_affordable = floor(9925/100)
= 99 and granted = 99 as claimed, but the cost is 9974.25, so the
resulting available_funds is 25.75, which is nonnegative. -/
theorem C3_amended :
    (⌊(9925 : ℚ) / 100⌋ : ℚ) = 99 ∧
    actAgent c3Agent 10 =
      some ({ c3Agent with
                availableFunds := 25.75, numberOfStocks := 99,
                totalBalance := 25.75 + (99 * 100 - 99 * 100 * transactionCost),
                demand := 99, supply := 0 }, -99) ∧
    ((0 : ℚ) ≤ 25.75) := by
  refine ⟨by norm_num, ?_, by norm_num⟩
  norm_num [actAgent, buyStep, c3Agent, transactionCost, noActions]

/-! ## Claim C2 -/

/-- An agent with both eligibility flags at 1 (which in this code base
blocks trading) and a prior total balance of 1000. -/
def c2AgentHalted : AgentState :=
  { availableFunds := 10000, numberOfStocks := 3, totalBalance := 1000,
    stockPrice := 100, demand := 0, supply := 0, ableToBuy := 1, ableToSell := 1,
    stocksLeft := 200 }

/-- An agent with AbleToBuy = 1 and AbleToSell = 0 and stale demand 7 and
supply 4 from an earlier step. -/
def c2AgentMixed : AgentState :=
  { availableFunds := 10000, numberOfStocks := 3, totalBalance := 1000,
    stockPrice := 100, demand := 7, supply := 4, ableToBuy := 1, ableToSell := 0,
    stocksLeft := 200 }

/-- C2 counterexample: for the in-range buy action 5 of an agent that is
not buy-enabled, the claim says demand and supply are set to 0 and no
funds or inventory field changes.  With both flags at 1 the code instead
subtracts 5000 from total_balance (1000 becomes -4000), and with flags
(1, 0) the code changes nothing at all, so demand keeps its stale value 7
instead of being set to 0. -/
theorem C2_counterexample :
    ((actAgent c2AgentHalted 5).map fun r => r.1.totalBalance) = some (-4000 : ℚ) ∧
    ((-4000 : ℚ) ≠ 1000) ∧
    ((actAgent c2AgentMixed 5).map fun r => r.1.demand) = some (7 : ℚ) ∧
    ((7 : ℚ) ≠ 0) := by
  refine ⟨?_, by norm_num, ?_, by norm_num⟩ <;>
    norm_num [actAgent, c2AgentHalted, c2AgentMixed, noActions]

/-- C2 (amended): action 0 sets demand and supply to 0 and changes nothing
else; a buy (1..10) executes exactly when AbleToBuy = 0 and a sell
(11..20) exactly when AbleToSell = 0 (the flag value 0 enables the trade);
for an in-range action whose trade is not enabled, the code subtracts 5000
from total_balance and zeroes demand and supply when both flags equal 1,
and otherwise changes no field at all, leaving demand and supply at their
prior values. -/
theorem C2_trade_gating (ag : AgentState) (action : ℕ) :
    actAgent ag 0 = some ({ ag with demand := 0, supply := 0 }, 0) ∧
    (1 ≤ action → action ≤ 10 → ag.ableToBuy = 0 → ag.stockPrice ≠ 0 →
      actAgent ag action = some (buyStep ag action)) ∧
    (10 < action → action ≤ 20 → ag.ableToSell = 0 →
      actAgent ag action = some (sellStep ag action)) ∧
    (1 ≤ action → action ≤ 20 →
      (action ≤ 10 → ag.ableToBuy ≠ 0) → (10 < action → ag.ableToSell ≠ 0) →
      (ag.ableToBuy = 1 ∧ ag.ableToSell = 1 →
        actAgent ag action =
          some ({ ag with totalBalance := ag.totalBalance - 5000,
                          demand := 0, supply := 0 }, 0)) ∧
      (¬ (ag.ableToBuy = 1 ∧ ag.ableToSell = 1) →
        actAgent ag action = some (ag, 0))) := by
  refine ⟨actAgent_hold_eq ag, ?_, ?_, ?_⟩
  · exact fun h1 h2 hb hp => actAgent_buy_eq ag action h1 h2 hb hp
  · exact fun h1 h2 hsl => actAgent_sell_eq ag action h1 h2 hsl
  · intro h0 h2 hb hsl
    exact ⟨actAgent_penalty_eq ag action h0 h2 hb hsl,
           actAgent_noop_eq ag action h0 h2 hb hsl⟩

/-- C2 witness: the amended statement applied to the halted agent with buy
action 5 yields the 5000 penalty on total_balance. -/
theorem C2_trade_gating_witness :
    actAgent c2AgentHalted 5 =
      some ({ c2AgentHalted with totalBalance := c2AgentHalted.totalBalance - 5000,
                                 demand := 0, supply := 0 }, 0) :=
  ((C2_trade_gating c2AgentHalted 5).2.2.2 (by norm_num) (by norm_num)
      (fun _ => by norm_num [c2AgentHalted]) (fun h => absurd h (by norm_num))).1
    ⟨rfl, rfl⟩

/-! ## Claim C6 -/

/-- C6 counterexample: with policy_interval = 3 the code applies the
planner decision on timesteps t with (t - 1) % 3 = 0.  At step 3 a legal
planner action 1 therefore leaves the flags (0, 0) unchanged, although the
claim says the decision is applied to every agent in that same step; and
at step 1 the decision is applied, although the claim says prior
eligibility persists through steps 1 and 2. -/
theorem C6_counterexample :
    cbComponentStep 3 3 1 [((0 : ℚ), (0 : ℚ))] = some [(0, 0)] ∧
    (((0 : ℚ), (0 : ℚ)) ≠ ((1 : ℚ), (1 : ℚ))) ∧
    cbComponentStep 3 1 1 [((0 : ℚ), (0 : ℚ))] = some [(1, 1)] := by
  refine ⟨?_, by norm_num, ?_⟩ <;> norm_num [cbComponentStep, cbNoActions]

/-- C6 (amended): with policy_interval = 3 the planner mask is all-zero at
steps 1 and 2 and all-ones at step 3, but the decision is applied on the
steps t with (t - 1) % 3 = 0: both legal planner actions leave every
agent's flags unchanged at steps 2 and 3, while at steps 1 and 4 the
decision is applied to every agent's AbleToBuy and AbleToSell. -/
theorem C6_circuit_breaker_cadence (flags : List (ℚ × ℚ)) :
    cbGenerateMasks 3 1 = [0] ∧ cbGenerateMasks 3 2 = [0] ∧ cbGenerateMasks 3 3 = [1] ∧
    cbComponentStep 3 2 0 flags = some flags ∧
    cbComponentStep 3 2 1 flags = some flags ∧
    cbComponentStep 3 3 0 flags = some flags ∧
    cbComponentStep 3 3 1 flags = some flags ∧
    cbComponentStep 3 1 0 flags = some (flags.map fun _ => (0, 0)) ∧
    cbComponentStep 3 1 1 flags = some (flags.map fun _ => (1, 1)) ∧
    cbComponentStep 3 4 0 flags = some (flags.map fun _ => (0, 0)) ∧
    cbComponentStep 3 4 1 flags = some (flags.map fun _ => (1, 1)) := by
  refine ⟨?_, ?_, ?_, ?_, ?_, ?_, ?_, ?_, ?_, ?_, ?_⟩ <;>
    norm_num [cbGenerateMasks, cbComponentStep, cbNoActions]

/-! ## Claim C7 -/

/-- C7 counterexample: with two agents holding balances 300 and 100, both
with starting funds 100, the code reward of the first agent is
300 / 100 / 2 = 3/2.  The claim describes the reward as
balance / max_balance (here 1), optionally rescaled by 2 r - 1 (1) and/or
divided by the number of agents (1/2, 1/2, 0): the code value matches none
of these. -/
theorem C7_counterexample :
    getCurrentOptimizationMetrics [⟨300, 100⟩, ⟨100, 100⟩] 2 = [3/2, 1/2] ∧
    specMaxBalance [300, 100] = 300 ∧
    specAgentRewardBase [300, 100] 0 = 1 ∧
    agentRewardTotal 300 (specMaxBalance [300, 100]) = 1 ∧
    ((3/2 : ℚ) ≠ 1 ∧ (3/2 : ℚ) ≠ 1/2 ∧ (3/2 : ℚ) ≠ 0) := by
  refine ⟨?_, ?_, ?_, ?_, by norm_num⟩ <;>
    norm_num [getCurrentOptimizationMetrics, specAgentRewardBase, specMaxBalance,
      agentRewardTotal]

/-- C7 (amended): the per-agent reward of the scenario is the agent's
total_balance divided by that agent's own StartingFunds recorded at reset,
then divided by the number of agents; the maximum balance across agents is
not used (agent_reward_total in rewards.py computes
2 * balance / max_balance - 1 but is never called by the scenario), and
there is no zero-balance edge case. -/
theorem C7_agent_reward (agents : List RewardAgent) (nAgents : ℕ) (i : ℕ)
    (h : i < agents.length) :
    (getCurrentOptimizationMetrics agents nAgents).getD i 0 =
      (agents.getD i ⟨0, 0⟩).totalBalance / (agents.getD i ⟨0, 0⟩).startingFunds
        / (nAgents : ℚ) := by
  unfold getCurrentOptimizationMetrics
  rw [List.getD_eq_getElem?_getD, List.getElem?_map, List.getElem?_eq_getElem h,
      List.getD_eq_getElem?_getD, List.getElem?_eq_getElem h]
  rfl

/-- C7 witness: the amended reward statement at one concrete agent list. -/
theorem C7_agent_reward_witness :
    (getCurrentOptimizationMetrics [⟨400, 200⟩] 1).getD 0 0 =
      (([⟨400, 200⟩] : List RewardAgent).getD 0 ⟨0, 0⟩).totalBalance /
        (([⟨400, 200⟩] : List RewardAgent).getD 0 ⟨0, 0⟩).startingFunds /
        ((1 : ℕ) : ℚ) :=
  C7_agent_reward [⟨400, 200⟩] 1 0 (by norm_num)

/-! ## Claim C8 -/

/-- C8 counterexample: with volumes [0, 5, 10], current volume 10 and step
index 2, the liquidity metric averages volumes[0:2] (steps 0 and 1),
giving 2.5, and because the current volume 10 is at least the average it
returns 1.0, not 0.75; there is no base_volume parameter and no
maximum-so-far in the computation. -/
theorem C8_counterexample :
    plannerMetricLiquidity 10 [0, 5, 10] 2 = 1 ∧ ((1 : ℚ) ≠ 3/4) := by
  refine ⟨?_, by norm_num⟩
  norm_num [plannerMetricLiquidity, volumeComparer, avgList]

/-- C8 (amended): with volumes [0, 5, 10] and index 2 the liquidity metric
averages the volumes of steps 0..1, giving 5/2, and since the current
volume 10 is at least that average the liquidity score is 1. -/
theorem C8_liquidity_scenario :
    avgList (([0, 5, 10] : List ℚ).take 2) = 5/2 ∧
    plannerMetricLiquidity 10 [0, 5, 10] 2 = 1 := by
  constructor <;> norm_num [plannerMetricLiquidity, volumeComparer, avgList]

/-! ## Claims C4 and C5 -/

lemma buy_funds_arith (f p g : ℚ) (hf : 0 ≤ f) (hp : 0 < p)
    (hg0 : 0 ≤ g) (hgp : g * p ≤ f - f * transactionCost) :
    0 ≤ f - (g * p + g * p * transactionCost) := by
  rw [show transactionCost = 3/400 by norm_num [transactionCost]] at hgp ⊢
  have hgp0 : 0 ≤ g * p := mul_nonneg hg0 hp.le
  linarith

lemma buyStep_safe (ag : AgentState) (action : ℕ)
    (hf : 0 ≤ ag.availableFunds) (hs : 0 ≤ ag.stocksLeft) (hp : 0 < ag.stockPrice)
    (ha : action ≤ 10) :
    0 ≤ ag.stocksLeft + (buyStep ag action).2 ∧ 0 ≤ (buyStep ag action).1.availableFunds := by
  simp only [buyStep]
  set f := ag.availableFunds with hfdef
  set p := ag.stockPrice with hpdef
  set sl := ag.stocksLeft with hsldef
  set M : ℚ := (⌊(f - f * transactionCost) / p⌋ : ℚ) with hMdef
  set req : ℚ := (⌊M * ((action : ℚ) * 0.10)⌋ : ℚ) with hreqdef
  have hsub0 : (0:ℚ) ≤ f - f * transactionCost := by
    rw [show transactionCost = 3/400 by norm_num [transactionCost]]
    linarith
  have hM0 : (0:ℚ) ≤ M := by
    rw [hMdef]
    exact_mod_cast Int.floor_nonneg.mpr (div_nonneg hsub0 hp.le)
  have hMp : M * p ≤ f - f * transactionCost := by
    rw [hMdef]
    calc ((⌊(f - f * transactionCost) / p⌋ : ℚ)) * p
        ≤ ((f - f * transactionCost) / p) * p :=
          mul_le_mul_of_nonneg_right (Int.floor_le _) hp.le
      _ = f - f * transactionCost := div_mul_cancel₀ _ hp.ne'
  have hpct0 : (0:ℚ) ≤ (action : ℚ) * 0.10 := by positivity
  have hpct1 : (action : ℚ) * 0.10 ≤ 1 := by
    have hc : (action : ℚ) ≤ 10 := by exact_mod_cast ha
    nlinarith
  have hreq0 : (0:ℚ) ≤ req := by
    rw [hreqdef]
    exact_mod_cast Int.floor_nonneg.mpr (mul_nonneg hM0 hpct0)
  have hreqM : req ≤ M := by
    rw [hreqdef]
    calc ((⌊M * ((action : ℚ) * 0.10)⌋ : ℚ)) ≤ M * ((action : ℚ) * 0.10) := Int.floor_le _
      _ ≤ M * 1 := mul_le_mul_of_nonneg_left hpct1 hM0
      _ = M := mul_one M
  by_cases hcl : sl < req
  · rw [if_pos hcl]
    refine ⟨by linarith, ?_⟩
    exact buy_funds_arith f p sl hf hp hs (le_trans
      (mul_le_mul_of_nonneg_right (le_trans hcl.le hreqM) hp.le) hMp)
  · rw [if_neg hcl]
    refine ⟨by linarith [not_lt.mp hcl], ?_⟩
    exact buy_funds_arith f p req hf hp hreq0 (le_trans
      (mul_le_mul_of_nonneg_right hreqM hp.le) hMp)

lemma sellStep_safe (ag : AgentState) (action : ℕ)
    (hn : 0 ≤ ag.numberOfStocks) (ha : action ≤ 20) :
    0 ≤ (sellStep ag action).1.numberOfStocks := by
  simp only [sellStep]
  have hc : (action : ℚ) ≤ 20 := by exact_mod_cast ha
  have hpct1 : ((action : ℚ) - 10) * 0.10 ≤ 1 := by nlinarith
  have h1 : ((⌊ag.numberOfStocks * (((action : ℚ) - 10) * 0.10)⌋ : ℚ)) ≤
      ag.numberOfStocks * (((action : ℚ) - 10) * 0.10) := Int.floor_le _
  have h2 : ag.numberOfStocks * (((action : ℚ) - 10) * 0.10) ≤ ag.numberOfStocks * 1 :=
    mul_le_mul_of_nonneg_left hpct1 hn
  linarith

/-- C4: for nonnegative funds, holdings and pool and positive price, an
executed buy (action 1..10 with AbleToBuy = 0) leaves the pool counter and
the available funds nonnegative, and an executed sell (action 11..20 with
AbleToSell = 0) leaves the number of stocks nonnegative.  The pool value
after the step is ag.stocksLeft + d where d is the delta the inner loop
adds to every agent. -/
theorem C4_trade_safety (ag : AgentState) (action : ℕ) (ag2 : AgentState) (d : ℚ)
    (hf : 0 ≤ ag.availableFunds) (hn : 0 ≤ ag.numberOfStocks)
    (hs : 0 ≤ ag.stocksLeft) (hp : 0 < ag.stockPrice)
    (hact : actAgent ag action = some (ag2, d)) :
    ((1 ≤ action ∧ action ≤ 10 ∧ ag.ableToBuy = 0) →
        0 ≤ ag.stocksLeft + d ∧ 0 ≤ ag2.availableFunds) ∧
    ((10 < action ∧ action ≤ 20 ∧ ag.ableToSell = 0) →
        0 ≤ ag2.numberOfStocks) := by
  constructor
  · rintro ⟨h1, h2, hb⟩
    rw [actAgent_buy_eq ag action h1 h2 hb hp.ne'] at hact
    have hpair := Option.some.inj hact
    have hfst : (buyStep ag action).1 = ag2 := by rw [hpair]
    have hsnd : (buyStep ag action).2 = d := by rw [hpair]
    rw [← hfst, ← hsnd]
    exact buyStep_safe ag action hf hs hp h2
  · rintro ⟨h1, h2, hsl⟩
    rw [actAgent_sell_eq ag action h1 h2 hsl] at hact
    have hpair := Option.some.inj hact
    have hfst : (sellStep ag action).1 = ag2 := by rw [hpair]
    rw [← hfst]
    exact sellStep_safe ag action hn h2

/-- The result of the full buy of c3Agent. -/
def c4BuyResult : AgentState :=
  { c3Agent with
      availableFunds := 25.75, numberOfStocks := 99,
      totalBalance := 25.75 + (99 * 100 - 99 * 100 * transactionCost),
      demand := 99, supply := 0 }

/-- C4 witness: the safety statement applied to the concrete full buy of
c3Agent. -/
theorem C4_trade_safety_witness :
    ((1 ≤ 10 ∧ 10 ≤ 10 ∧ c3Agent.ableToBuy = 0) →
        0 ≤ c3Agent.stocksLeft + (-99 : ℚ) ∧ 0 ≤ c4BuyResult.availableFunds) ∧
    ((10 < 10 ∧ 10 ≤ 20 ∧ c3Agent.ableToSell = 0) →
        0 ≤ c4BuyResult.numberOfStocks) :=
  C4_trade_safety c3Agent 10 c4BuyResult (-99)
    (by norm_num [c3Agent]) (by norm_num [c3Agent]) (by norm_num [c3Agent])
    (by norm_num [c3Agent])
    (by norm_num [actAgent, buyStep, c3Agent, c4BuyResult, transactionCost, noActions])

lemma actAgent_buy_none (ag : AgentState) (action : ℕ) (h1 : 1 ≤ action) (h2 : action ≤ 10)
    (hb : ag.ableToBuy = 0) (hp : ag.stockPrice = 0) :
    actAgent ag action = none := by
  unfold actAgent
  rw [if_pos (show action ≤ noActions by unfold noActions; omega),
      if_neg (show ¬ action = 0 by omega), if_pos ⟨h2, hb⟩, if_pos hp]

lemma buyStep_balance (ag : AgentState) (action : ℕ) :
    (buyStep ag action).1.totalBalance =
      (buyStep ag action).1.availableFunds +
        (buyStep ag action).1.numberOfStocks * (buyStep ag action).1.stockPrice *
          (1 - transactionCost) := by
  simp only [buyStep]
  ring

lemma sellStep_balance (ag : AgentState) (action : ℕ) :
    (sellStep ag action).1.totalBalance =
      (sellStep ag action).1.availableFunds +
        (sellStep ag action).1.numberOfStocks * (sellStep ag action).1.stockPrice *
          (1 - transactionCost) := by
  simp only [sellStep]
  ring

/-- C5: after an executed buy or sell, the acting agent's total_balance
equals available_funds + num_stocks * price * (1 - transaction_cost)
recomputed from the post-trade field values; in this exact-arithmetic
model the equality is exact, hence within any positive tolerance. -/
theorem C5_total_balance_recomputed (ag : AgentState) (action : ℕ) (ag2 : AgentState) (d : ℚ)
    (hact : actAgent ag action = some (ag2, d))
    (htrade : (1 ≤ action ∧ action ≤ 10 ∧ ag.ableToBuy = 0) ∨
              (10 < action ∧ action ≤ 20 ∧ ag.ableToSell = 0)) :
    ag2.totalBalance =
      ag2.availableFunds + ag2.numberOfStocks * ag2.stockPrice * (1 - transactionCost) := by
  rcases htrade with ⟨h1, h2, hb⟩ | ⟨h1, h2, hsl⟩
  · by_cases hp : ag.stockPrice = 0
    · rw [actAgent_buy_none ag action h1 h2 hb hp] at hact
      exact Option.noConfusion hact
    · rw [actAgent_buy_eq ag action h1 h2 hb hp] at hact
      have hfst : (buyStep ag action).1 = ag2 := by rw [Option.some.inj hact]
      rw [← hfst]
      exact buyStep_balance ag action
  · rw [actAgent_sell_eq ag action h1 h2 hsl] at hact
    have hfst : (sellStep ag action).1 = ag2 := by rw [Option.some.inj hact]
    rw [← hfst]
    exact sellStep_balance ag action

/-- A seller holding 10 stocks. -/
def c5Agent : AgentState :=
  { availableFunds := 500, numberOfStocks := 10, totalBalance := 0,
    stockPrice := 100, demand := 0, supply := 0, ableToBuy := 1, ableToSell := 0,
    stocksLeft := 50 }

/-- The result of the full sell of c5Agent. -/
def c5SellResult : AgentState :=
  { c5Agent with
      availableFunds := 1492.5, numberOfStocks := 0, totalBalance := 1492.5,
      demand := 0, supply := 10 }

/-- C5 witness: the recomputed-balance statement applied to the concrete
full sell of c5Agent. -/
theorem C5_total_balance_recomputed_witness :
    c5SellResult.totalBalance =
      c5SellResult.availableFunds +
        c5SellResult.numberOfStocks * c5SellResult.stockPrice * (1 - transactionCost) :=
  C5_total_balance_recomputed c5Agent 20 c5SellResult 10
    (by norm_num [actAgent, sellStep, c5Agent, c5SellResult, transactionCost, noActions])
    (Or.inr (by norm_num [c5Agent]))

/-! ## Claim C9 -/

lemma crashStartPhase_inv (ms : MarketState) (h : 0 < ms.price)
    (hi0 : 0 < ms.intensity) (hi1 : ms.intensity < 1) :
    0 < (crashStartPhase ms).price ∧ 0 < (crashStartPhase ms).intensity ∧
      (crashStartPhase ms).intensity < 1 := by
  simp only [crashStartPhase]
  split_ifs with hc
  · exact ⟨mul_pos h hi0, hi0, hi1⟩
  · exact ⟨h, hi0, hi1⟩

lemma crashContPhase_inv (ms : MarketState) (u : ℚ) (h : 0 < ms.price)
    (hi0 : 0 < ms.intensity) (hi1 : ms.intensity < 1) (hu0 : 0 < u) (hu1 : u < 1) :
    0 < (crashContPhase ms u).price ∧ 0 < (crashContPhase ms u).intensity ∧
      (crashContPhase ms u).intensity < 1 := by
  simp only [crashContPhase]
  split_ifs with hc
  · refine ⟨mul_pos h (mul_pos hi0 hu0), mul_pos hi0 hu0, ?_⟩
    show ms.intensity * u < 1
    nlinarith
  · exact ⟨h, hi0, hi1⟩

lemma scenarioStepPrice_inv (ms ms2 : MarketState) (d : StepDraw)
    (h : 0 < ms.price) (hi0 : 0 < ms.intensity) (hi1 : ms.intensity < 1)
    (hu0 : 0 < d.u) (hu1 : d.u < 1)
    (hr : ∀ p, nextstepP d.totalSupply d.totalDemand = some p →
        0 < 1 + (0.5 * d.r + 0.5 * p))
    (hstep : scenarioStepPrice ms d = some ms2) :
    0 < ms2.price ∧ 0 < ms2.intensity ∧ ms2.intensity < 1 := by
  obtain ⟨hs1, hs2, hs3⟩ := crashStartPhase_inv ms h hi0 hi1
  obtain ⟨hc1, hc2, hc3⟩ := crashContPhase_inv (crashStartPhase ms) d.u hs1 hs2 hs3 hu0 hu1
  unfold scenarioStepPrice nextstepPrice at hstep
  cases hp : nextstepP d.totalSupply d.totalDemand with
  | none =>
    rw [hp] at hstep
    exact Option.noConfusion hstep
  | some p =>
    rw [hp] at hstep
    simp only [Option.map_some', Option.some.injEq] at hstep
    subst hstep
    exact ⟨mul_pos hc1 (hr p hp), hc2, hc3⟩

/-- C9 (amended): the claim quantifies over all random draws, but an
unbounded negative normal return makes the step factor
1 + 0.5 r + 0.5 p nonpositive (see the counterexample), so positivity
holds conditionally: from a positive price and a crash intensity in (0,1),
any sequence of scenario steps whose uniform decay draws lie in (0,1) and
whose price-step factor 1 + 0.5 r + 0.5 p stays positive keeps the price
strictly positive, and crash multiplications keep the intensity inside
(0,1). -/
theorem C9_price_positive_conditional (ms ms2 : MarketState) (ds : List StepDraw)
    (h : 0 < ms.price) (hi0 : 0 < ms.intensity) (hi1 : ms.intensity < 1)
    (hd : ∀ d ∈ ds, (0 < d.u ∧ d.u < 1) ∧
        ∀ p, nextstepP d.totalSupply d.totalDemand = some p →
          0 < 1 + (0.5 * d.r + 0.5 * p))
    (hrun : runScenario ms ds = some ms2) :
    0 < ms2.price ∧ 0 < ms2.intensity ∧ ms2.intensity < 1 := by
  induction ds generalizing ms with
  | nil =>
    unfold runScenario at hrun
    obtain rfl := Option.some.inj hrun
    exact ⟨h, hi0, hi1⟩
  | cons d rest ih =>
    unfold runScenario at hrun
    split at hrun
    · exact Option.noConfusion hrun
    · next ms1 hs =>
      obtain ⟨hp1, hp2, hp3⟩ := scenarioStepPrice_inv ms ms1 d h hi0 hi1
        (hd d (List.mem_cons_self d rest)).1.1 (hd d (List.mem_cons_self d rest)).1.2
        (hd d (List.mem_cons_self d rest)).2 hs
      exact ih ms1 hp1 hp2 hp3 (fun d' hd' => hd d' (List.mem_cons_of_mem d hd')) hrun

/-- A market state outside any crash window: price 100, intensity 1/2,
crash start at step 99. -/
def c9Start : MarketState :=
  { price := 100, crash := false, crashStart := 99, intensity := 1/2,
    duration := 3, stepIndicator := 0 }

/-- C9 counterexample: from the positive price 100, a single price step
with demand = supply = 0 and normal draw r = -4 produces the price
100 * (1 + 0.5 * (-4)) = -100, so the price does not stay strictly
positive for every sequence of draws. -/
theorem C9_counterexample :
    (0 : ℚ) < c9Start.price ∧
    ((runScenario c9Start [⟨1/2, -4, 0, 0⟩]).map MarketState.price) = some (-100) ∧
    ((-100 : ℚ) < 0) := by
  refine ⟨by norm_num [c9Start], ?_, by norm_num⟩
  norm_num [runScenario, scenarioStepPrice, crashStartPhase, crashContPhase,
    nextstepPrice, nextstepP, c9Start]

/-- The state after one benign step from c9Start. -/
def c9End : MarketState :=
  { price := 100, crash := false, crashStart := 99, intensity := 1/2,
    duration := 3, stepIndicator := 1 }

/-- C9 witness: the conditional positivity statement applied to one
concrete benign step. -/
theorem C9_price_positive_conditional_witness :
    0 < c9End.price ∧ 0 < c9End.intensity ∧ c9End.intensity < 1 :=
  C9_price_positive_conditional c9Start c9End [⟨1/2, 0, 0, 0⟩]
    (by norm_num [c9Start]) (by norm_num [c9Start]) (by norm_num [c9Start])
    (by
      intro d hd
      simp only [List.mem_singleton] at hd
      subst hd
      refine ⟨⟨by norm_num, by norm_num⟩, ?_⟩
      intro p hp
      simp only [nextstepP] at hp
      norm_num at hp
      rw [← hp]
      norm_num)
    (by
      norm_num [runScenario, scenarioStepPrice, crashStartPhase, crashContPhase,
        nextstepPrice, nextstepP, c9Start, c9End])

/-! ## Claim C10 -/

lemma actAgent_stocksLeft_eq (ag : AgentState) (action : ℕ) (ag2 : AgentState) (d : ℚ)
    (h : actAgent ag action = some (ag2, d)) : ag2.stocksLeft = ag.stocksLeft := by
  unfold actAgent at h
  split_ifs at h
  all_goals
    first
      | exact Option.noConfusion h
      | (have h1 : ag2 = _ := (congrArg Prod.fst (Option.some.inj h)).symm
         rw [h1]
         rfl)
      | (have h1 : ag2 = _ := (congrArg Prod.fst (Option.some.inj h)).symm
         rw [h1])

lemma worldAct_stocksLeftEq (ags ags2 : List AgentState) (i a : ℕ)
    (h : StocksLeftEq ags) (hw : worldAct ags i a = some ags2) : StocksLeftEq ags2 := by
  unfold worldAct at hw
  split at hw
  · exact Option.noConfusion hw
  · next ag hga =>
    split at hw
    · exact Option.noConfusion hw
    · next ag2 d hact =>
      obtain rfl := Option.some.inj hw
      have hmem : ag ∈ ags := List.getElem?_mem hga
      have hagsl : ag2.stocksLeft = ag.stocksLeft := actAgent_stocksLeft_eq ag a ag2 d hact
      have hval : ∀ z ∈ ags.set i ag2, z.stocksLeft = ag.stocksLeft := by
        intro z hz
        rcases List.mem_or_eq_of_mem_set hz with hz2 | rfl
        · exact h z hz2 ag hmem
        · exact hagsl
      intro x hx y hy
      simp only [List.mem_map] at hx hy
      obtain ⟨xa, hxa, rfl⟩ := hx
      obtain ⟨ya, hya, rfl⟩ := hy
      show xa.stocksLeft + d = ya.stocksLeft + d
      rw [hval xa hxa, hval ya hya]

lemma componentStep_stocksLeftEq (order : List (ℕ × ℕ)) (ags ags2 : List AgentState)
    (h : StocksLeftEq ags) (hc : componentStep ags order = some ags2) : StocksLeftEq ags2 := by
  induction order generalizing ags with
  | nil =>
    unfold componentStep at hc
    obtain rfl := Option.some.inj hc
    exact h
  | cons p rest ih =>
    obtain ⟨i, a⟩ := p
    unfold componentStep at hc
    split at hc
    · exact Option.noConfusion hc
    · next ags1 hw => exact ih ags1 (worldAct_stocksLeftEq ags ags1 i a h hw) hc

lemma runSteps_stocksLeftEq (steps : List (List (ℕ × ℕ))) (ags ags2 : List AgentState)
    (h : StocksLeftEq ags) (hrun : runSteps ags steps = some ags2) : StocksLeftEq ags2 := by
  induction steps generalizing ags with
  | nil =>
    unfold runSteps at hrun
    obtain rfl := Option.some.inj hrun
    exact h
  | cons o rest ih =>
    unfold runSteps at hrun
    split at hrun
    · exact Option.noConfusion hrun
    · next ags1 hc => exact ih ags1 (componentStep_stocksLeftEq o ags ags1 h hc) hrun

/-- C10: starting from a reset where every agent's StocksLeft equals the
same configured stock quantity, every executed buy or sell updates every
agent's StocksLeft copy by the same granted amount, so after any sequence
of order-execution steps all agents' StocksLeft values are equal to one
another. -/
theorem C10_stocks_left_uniform (ags ags2 : List AgentState) (q : ℚ)
    (steps : List (List (ℕ × ℕ)))
    (hreset : ∀ a ∈ ags, a.stocksLeft = q)
    (hrun : runSteps ags steps = some ags2) :
    StocksLeftEq ags2 :=
  runSteps_stocksLeftEq steps ags ags2
    (fun a ha b hb => by rw [hreset a ha, hreset b hb]) hrun

/-- The world after one full buy by the first of two identical agents. -/
def c10Result : List AgentState :=
  [{ availableFunds := 103/4, numberOfStocks := 99, totalBalance := 19703/2,
     stockPrice := 100, demand := 99, supply := 0, ableToBuy := 0, ableToSell := 0,
     stocksLeft := 101 },
   { c3Agent with stocksLeft := 101 }]

/-- C10 witness: the uniformity statement applied to a concrete two-agent
world where agent 0 performs a full buy. -/
theorem C10_stocks_left_uniform_witness : StocksLeftEq c10Result :=
  C10_stocks_left_uniform [c3Agent, c3Agent] c10Result 200 [[(0, 10)]]
    (by
      intro a ha
      simp only [List.mem_cons, List.not_mem_nil, or_false] at ha
      rcases ha with rfl | rfl <;> rfl)
    (by
      norm_num [runSteps, componentStep, worldAct, actAgent, buyStep, c3Agent,
        c10Result, transactionCost, noActions])
